import Mathlib

/-!
Shallow embedding of `src/index.js` (class `Log`, an HTML file logger) and
verification of its specification claims.

Modelling conventions:
* JavaScript strings are embedded as `List Char`.
* A JavaScript `Date` is embedded as a record of the getter values the source
  uses (`getDate`, `getMonth`, `getFullYear`, `getHours`, `getMinutes`,
  `getSeconds`, `getTime`).  Every `new Date()` evaluated during one public
  method call is modelled as the single instant `now` passed to that call.
* The `this.sections` object is embedded as an association list in property
  creation order; property enumeration (`for ... in`) follows the ECMAScript
  ordinary own property key order: array-index keys first in ascending numeric
  order, then the remaining string keys in creation order.
* A thrown exception (the `TypeError` from dereferencing `undefined`) is
  embedded as `none`; a successful call returns the new state together with
  the list of file writes (path, content) it performed, in order.
-/

namespace HtmlLog

/-- JavaScript strings are modelled as lists of characters. -/
abbrev Str := List Char

/-- Decimal digit character for a value below ten. -/
def digitCh (n : Nat) : Char :=
  if n = 0 then '0' else if n = 1 then '1' else if n = 2 then '2'
  else if n = 3 then '3' else if n = 4 then '4' else if n = 5 then '5'
  else if n = 6 then '6' else if n = 7 then '7' else if n = 8 then '8' else '9'

/-- Fueled accumulator loop producing the decimal digits of a number. -/
def natToStrGo : Nat → Nat → Str → Str
  | 0, _, acc => acc
  | fuel + 1, n, acc =>
    if n < 10 then digitCh n :: acc
    else natToStrGo fuel (n / 10) (digitCh (n % 10) :: acc)

/-- Decimal string of a number, as JavaScript coerces a Number to a String. -/
def natToStr (n : Nat) : Str := natToStrGo (n + 1) n []

/-- Test whether the first list is an initial segment of the second
(the check JavaScript `String.prototype.replace` performs at each position). -/
def leadsWith : Str → Str → Bool
  | [], _ => true
  | _ :: _, [] => false
  | p :: ps, c :: cs => decide (p = c) && leadsWith ps cs

/-- JavaScript `s.replace(pat, rep)` with a string pattern: replace the
leftmost occurrence of `pat` only, or return `s` unchanged when absent. -/
def replaceFirst : Str → Str → Str → Str
  | [], pat, rep => if leadsWith pat [] then rep else []
  | c :: cs, pat, rep =>
    if leadsWith pat (c :: cs) then rep ++ (c :: cs).drop pat.length
    else c :: replaceFirst cs pat rep

/-- JavaScript `Date` object, restricted to the getters the source calls.
`month` is the zero-based `getMonth()` value; `time` is `getTime()` in
integer milliseconds. -/
structure DateTime where
  date : Nat
  month : Nat
  fullYear : Nat
  hours : Nat
  minutes : Nat
  seconds : Nat
  time : Int
deriving DecidableEq

/-- The source's `(x < 10) ? "0" + x : x` two-digit zero padding. -/
def jsPad (n : Nat) : Str := if n < 10 then '0' :: natToStr n else natToStr n

/-- Embedding of `Log._dateToString` (src/index.js lines 342-364): six
sequential first-occurrence replacements of the tokens dd, mm, yyyy, H, i, s. -/
def dateToString (dateTime : DateTime) (template : Str) : Str :=
  let day := jsPad dateTime.date
  let month := jsPad (dateTime.month + 1)
  let year := natToStr dateTime.fullYear
  let hours := natToStr dateTime.hours
  let minutes := natToStr dateTime.minutes
  let seconds := natToStr dateTime.seconds
  let t1 := replaceFirst template ['d', 'd'] day
  let t2 := replaceFirst t1 ['m', 'm'] month
  let t3 := replaceFirst t2 ['y', 'y', 'y', 'y'] year
  let t4 := replaceFirst t3 ['H'] hours
  let t5 := replaceFirst t4 ['i'] minutes
  let t6 := replaceFirst t5 ['s'] seconds
  t6

/-- Sample timestamp 2024-03-05T09:07:03 (`getMonth()` is 2 for March). -/
def sampleDate : DateTime :=
  { date := 5, month := 2, fullYear := 2024, hours := 9, minutes := 7,
    seconds := 3, time := 1709629623000 }

/-- Log entry object produced by `Log._getLogObject`: `{type, value, dateTime}`. -/
structure Entry where
  type : Str
  value : Str
  dateTime : Str
deriving DecidableEq

/-- Section record created by `Log.createSection`.  The source field `end`
is spelled `endT` (`end` is reserved in Lean); `elapsed` is `''` until the
section is closed, modelled as `none`, and an integer millisecond count
afterwards, modelled as `some`. -/
structure Sec where
  key : Str
  name : Str
  start : DateTime
  endT : DateTime
  elapsed : Option Int
  logs : List Entry
deriving DecidableEq

/-- State of a `Log` instance.  `sections` is the object `this.sections` as
an association list in property creation order; `endT` is `this.end`
(`null` at construction, modelled as `none`). -/
structure Log where
  title : Str
  description : Str
  logsPath : Str
  start : DateTime
  endT : Option DateTime
  sections : List (Str × Sec)
deriving DecidableEq

/-- Property read `this.sections[key]`: `some` section, or `none` when the
property is absent (JavaScript `undefined`). -/
def lookupSec (key : Str) : List (Str × Sec) → Option Sec
  | [] => none
  | p :: ps => if p.1 = key then some p.2 else lookupSec key ps

/-- Property write `this.sections[key] = v`: an existing key is overwritten in
place (keeping its enumeration position), a new key is appended last. -/
def setSec (key : Str) (v : Sec) : List (Str × Sec) → List (Str × Sec)
  | [] => [(key, v)]
  | p :: ps => if p.1 = key then (key, v) :: ps else p :: setSec key v ps

/-- Digit character test, byte range 48-57. -/
def isDigitCh (c : Char) : Bool := 48 ≤ c.toNat && c.toNat ≤ 57

/-- Numeric value of a digit string. -/
def natOfDigits (s : Str) : Nat := s.foldl (fun a c => a * 10 + (c.toNat - 48)) 0

/-- Whether a property key is an ECMAScript array index: the canonical decimal
form of an integer below 2^32 - 1 (no leading zero except `"0"` itself). -/
def isArrayIndexKey (k : Str) : Bool :=
  !k.isEmpty && k.all isDigitCh && (decide (k = ['0']) || !(decide (k.headD ' ' = '0')))
    && natOfDigits k < 4294967295

/-- Insert a pair into a list sorted by ascending numeric key value. -/
def insertNum (p : Str × Sec) : List (Str × Sec) → List (Str × Sec)
  | [] => [p]
  | q :: qs => if natOfDigits p.1 ≤ natOfDigits q.1 then p :: q :: qs else q :: insertNum p qs

/-- Sort pairs by ascending numeric key value. -/
def sortNum : List (Str × Sec) → List (Str × Sec)
  | [] => []
  | p :: ps => insertNum p (sortNum ps)

/-- ECMAScript `for ... in` enumeration order over `this.sections` (ordinary
own property key order): array-index keys in ascending numeric order first,
then all other keys in property creation order. -/
def jsOwnOrder (sections : List (Str × Sec)) : List (Str × Sec) :=
  sortNum (sections.filter (fun p => isArrayIndexKey p.1))
    ++ sections.filter (fun p => !isArrayIndexKey p.1)

/-- Date template used for every displayed timestamp in the document. -/
def fmtTpl : Str := "dd/mm/yyyy H:i:s".toList

/-- Document text from the start of the template literal up to the title
interpolation. -/
def htmlA : Str := "\n\t\t<html>\n\t\t\t<head>\n\t\t\t\t<title>\n\t\t\t\t\t".toList

/-- Inline style sheet and meta/script tags of the document head. -/
def styleMeta : Str := "\n\t\t\t\t</title>\n\t\t\t\t<style>\n\t\t\t\t\t.INFO\x7b\n\t\t\t\t\t\tcolor: green;\n\t\t\t\t\t\x7d\n\n\t\t\t\t\t.ERROR\x7b\n\t\t\t\t\t\tcolor: red;\n\t\t\t\t\t\x7d\n\n\t\t\t\t\t.DEBUG\x7b\n\t\t\t\t\t\tcolor: #0790b9;\n\t\t\t\t\t\x7d\n\n\t\t\t\t\t.WARNING\x7b\n\t\t\t\t\t\tcolor: yellow;\n\t\t\t\t\t\x7d\n\t\t\t\t</style>\n\t\t\t\t<meta charset=\"utf-8\" />\n\t\t\t\t<script src=\"https://ajax.googleapis.com/ajax/libs/jquery/3.1.1/jquery.min.js\"></script>\n".toList

/-- Inline client-side script of the document (severity filters, auto-refresh,
hide-empty-categories); presentation only, contains no interpolated state. -/
def scriptBlock : Str := "\t\t\t\t<script>\n\t\t\t\t\tfunction changeConfig()\x7b\n\t\t\t\t\t\tif ($(\x27#infocheck\x27).is(\x27:checked\x27)) \x7b\n\t\t\t\t\t\t\t$(\x27.INFO\x27).show();\n\t\t\t\t\t\t\x7delse\x7b\n\t\t\t\t\t\t\t$(\x27.INFO\x27).hide();\n\t\t\t\t\t\t\x7d\n\n\t\t\t\t\t\tif ($(\x27#debugcheck\x27).is(\x27:checked\x27)) \x7b\n\t\t\t\t\t\t\t$(\x27.DEBUG\x27).show();\n\t\t\t\t\t\t\x7delse\x7b\n\t\t\t\t\t\t\t$(\x27.DEBUG\x27).hide();\n\t\t\t\t\t\t\x7d\n\n\t\t\t\t\t\tif ($(\x27#warningcheck\x27).is(\x27:checked\x27)) \x7b\n\t\t\t\t\t\t\t$(\x27.WARNING\x27).show();\n\t\t\t\t\t\t\x7delse\x7b\n\t\t\t\t\t\t\t$(\x27.WARNING\x27).hide();\n\t\t\t\t\t\t\x7d\n\n\t\t\t\t\t\tif ($(\x27#errorcheck\x27).is(\x27:checked\x27)) \x7b\n\t\t\t\t\t\t\t$(\x27.ERROR\x27).show();\n\t\t\t\t\t\t\x7delse\x7b\n\t\t\t\t\t\t\t$(\x27.ERROR\x27).hide();\n\t\t\t\t\t\t\x7d\n\n\t\t\t\t\t\tif (window.autoRefreshInterval !== undefined)\x7b\n\t\t\t\t\t\t\tclearInterval(window.autoRefreshInterval);\n\t\t\t\t\t\t\x7d\n\n\t\t\t\t\t\tif ($(\x27#refreshconfig\x27).val() > 0)\x7b\n\t\t\t\t\t\t\twindow.autoRefreshInterval = setInterval(function()\x7blocation.reload();\x7d, $(\x27#refreshconfig\x27).val()*1000);\n\t\t\t\t\t\t\x7d\n\t\t\t\t\t\tlocalStorage.refreshConfig = $(\x27#refreshconfig\x27).val();\n\n\t\t\t\t\t\t$(\".section\").show();\n\t\t\t\t\t\tif ($(\x27#hidecategoriescheck\x27).is(\x27:checked\x27)) \n\t\t\t\t\t\t\t$(\".section:not(:has(div.islog:visible))\").hide();\n\t\t\t\t\t\t\n\t\t\t\t\t\x7d\n\n\t\t\t\t\t$( document ).ready(function() \x7b\n\t\t\t\t\t\tif (localStorage.refreshConfig !== undefined && localStorage.refreshConfig !== \x270\x27)\x7b\n\t\t\t\t\t\t\t$(\x27#refreshconfig option[value=\"\x27+localStorage.refreshConfig+\x27\"]\x27).attr(\"selected\",\"selected\");\n\t\t\t\t\t\t\x7d\n\n\t\t\t\t\t\tchangeConfig();\n\t\t\t\t\t\x7d);\n\n\t\t\t\t</script>\n".toList

/-- Document text between the head title interpolation and the `<h1>` title
interpolation of the body. -/
def htmlB : Str := styleMeta ++ scriptBlock ++ "\t\t\t</head>\n\t\t\t<body>\n\t\t\t\t<h1>".toList

/-- Document text between the `<h1>` title and the description paragraph. -/
def htmlC : Str := " log</h1>\n\t\t\t\t<p>".toList

/-- Document text between the description and the formatted start time. -/
def htmlD : Str := "</p>\n\t\t\t\t<h2 id=\"summary\">Summary</h2>\n\t\t\t\t<p>Started at: ".toList

/-- Document text between the formatted start and end times of the summary. -/
def htmlE : Str := "</p>\n\t\t\t\t<p>Finished at: ".toList

/-- Fixed control panel of the document (refresh selector and the four
severity checkboxes); contains no interpolated state. -/
def panelBlock : Str := "\t\t\t\t<div style=\"position: fixed; right: 50px; background-color:#e2e2e2;\">\n\t\t\t\t\t<div>\n\t\t\t\t\t\t<select id=\"refreshconfig\" onchange=\"changeConfig()\">\n\t\t\t\t\t\t\t<option value=\"0\">No auto-refresh</option>\n\t\t\t\t\t\t\t<option value=\"5\">Refresh every 5 seconds</option>\n\t\t\t\t\t\t\t<option value=\"10\">Refresh every 10 seconds</option>\n\t\t\t\t\t\t\t<option value=\"20\">Refresh every 20 seconds</option>\n\t\t\t\t\t\t\t<option value=\"30\">Refresh every 30 seconds</option>\n\t\t\t\t\t\t</select>\n\t\t\t\t\t</div>\n\t\t\t\t\t<div>\n\t\t\t\t\t\t<input type=\"checkbox\" id=\"hidecategoriescheck\" onchange=\"changeConfig()\" /> Do not show empty categories\n\t\t\t\t\t</div>\n\t\t\t\t\t<div>\n\t\t\t\t\t\t<input type=\"checkbox\" id=\"infocheck\" checked onchange=\"changeConfig()\" />Show INFO logs\n\t\t\t\t\t</div>\n\t\t\t\t\t<div>\n\t\t\t\t\t\t<input type=\"checkbox\" id=\"debugcheck\" checked onchange=\"changeConfig()\" />Show DEBUG logs\n\t\t\t\t\t</div>\n\t\t\t\t\t<div>\n\t\t\t\t\t\t<input type=\"checkbox\" id=\"warningcheck\" checked onchange=\"changeConfig()\" />Show WARNING logs\n\t\t\t\t\t</div>\n\t\t\t\t\t<div>\n\t\t\t\t\t\t<input type=\"checkbox\" id=\"errorcheck\" checked onchange=\"changeConfig()\" />Show ERROR logs\n\t\t\t\t\t</div>\n\t\t\t\t</div>\n".toList

/-- Document text between the formatted end time and the table of contents. -/
def htmlF : Str := "</p>\n".toList ++ panelBlock ++ "\t\t\t\t<h2>Sections of this report</h2>\n\t\t\t\t<ul>\n\t\t\t\t\t".toList

/-- Document text between the table of contents and the section blocks. -/
def htmlG : Str := "\n\t\t\t\t</ul>\n\t\t\t\t".toList

/-- Document text after the section blocks, closing body and html. -/
def htmlH : Str := "\n\t\t\t</body>\n\t\t</html>\n\t\t".toList

/-- Text of one table-of-contents item up to the section key interpolation. -/
def tocA : Str := "\n\t\t\t\t\t\t<li><a href=\"#".toList

/-- Text of one table-of-contents item between key and name. -/
def tocB : Str := "\">".toList

/-- Text of one table-of-contents item after the section name. -/
def tocC : Str := "</a></li>\n\t\t\t\t\t".toList

/-- One `<li>` link of the table of contents for a section. -/
def tocItem (s : Sec) : Str := tocA ++ s.key ++ tocB ++ s.name ++ tocC

/-- Table-of-contents accumulation loop (`for (var i in this.sections)` with
`sectionsStr +=` in the source); the list argument is the enumeration order. -/
def tocLoop (sections : List Sec) : Str :=
  sections.foldl (fun acc s => acc ++ tocItem s) []

/-- Text of one section block before the anchor id interpolation. -/
def blkA : Str := "\n\t\t\t\t<div class=\"section\">\n\t\t\t\t\t<h2 id=\"".toList

/-- Text of one section block between anchor id and display name. -/
def blkB : Str := "\" style=\"display: inline-block;\">".toList

/-- Text of one section block between display name and formatted start. -/
def blkC : Str := "</h2>\n\t\t\t\t\t<p style=\"display: inline-block; padding-left: 20px;\">(<a href=\"#summary\">Return to summary</a>)</p>\n\t\t\t\t\t<p>Started at: ".toList

/-- Text of one section block between formatted start and formatted end. -/
def blkD : Str := "</p>\n\t\t\t\t\t<p>Finished at: ".toList

/-- Text of one section block between formatted end and the entry lines. -/
def blkE : Str := "</p>\n\t\t\t\t\t".toList

/-- Text closing one section block. -/
def blkF : Str := "\n\t\t\t\t</div>\n\t\t\t".toList

/-- Text of one entry line before the first type interpolation. -/
def lineA : Str := "\n\t\t\t\t\t<div class=\"".toList

/-- Text of one entry line between the css class and the displayed type. -/
def lineB : Str := " islog\">".toList

/-- Text of one entry line between the displayed type and the date. -/
def lineC : Str := " (".toList

/-- Text of one entry line between the date and the value. -/
def lineD : Str := "): ".toList

/-- Text closing one entry line. -/
def lineE : Str := "</div>\n\t\t\t\t\t".toList

/-- One rendered entry line: `<div class="TYPE islog">TYPE (dateTime): value</div>`. -/
def logLine (l : Entry) : Str :=
  lineA ++ l.type ++ lineB ++ l.type ++ lineC ++ l.dateTime ++ lineD ++ l.value ++ lineE

/-- Entry accumulation loop (`for (var j in section.logs)` with `logsStr +=`). -/
def logsLoop (logs : List Entry) : Str :=
  logs.foldl (fun acc l => acc ++ logLine l) []

/-- One rendered section block: anchor, name, back link, start/end, entries. -/
def secBlock (s : Sec) : Str :=
  blkA ++ s.key ++ blkB ++ s.name ++ blkC ++ dateToString s.start fmtTpl
    ++ blkD ++ dateToString s.endT fmtTpl ++ blkE ++ logsLoop s.logs ++ blkF

/-- Section-block accumulation loop of the body. -/
def bodyLoop (sections : List Sec) : Str :=
  sections.foldl (fun acc s => acc ++ secBlock s) []

/-- Embedding of `Log._render` (src/index.js lines 182-334) with the value of
`this.end` supplied as `e` (the source dereferences `this.end`, so this body
is only reached when `this.end` is a date). -/
def Log.renderWith (st : Log) (e : DateTime) : Str :=
  htmlA ++ st.title ++ " - ".toList ++ dateToString st.start fmtTpl
    ++ htmlB ++ st.title ++ htmlC ++ st.description
    ++ htmlD ++ dateToString st.start fmtTpl ++ htmlE ++ dateToString e fmtTpl
    ++ htmlF ++ tocLoop ((jsOwnOrder st.sections).map (fun p => p.2))
    ++ htmlG ++ bodyLoop ((jsOwnOrder st.sections).map (fun p => p.2))
    ++ htmlH

/-- Embedding of `Log._render`: `none` models the `TypeError` thrown when
`this.end` is still `null` (only possible if rendering ran before any save). -/
def Log.render (st : Log) : Option Str := st.endT.map st.renderWith

/-- A file write performed by `fs.writeFileSync`: target path and content. -/
abbrev Write := Str × Str

/-- Target file path computed inside `Log._prepareSave` (src/index.js lines
156-175): every component is formatted from `this.start`, `this.title` and
`this.logsPath` only (directory creation has no bearing on the path). -/
def Log.savePath (st : Log) : Str :=
  let day := dateToString st.start ("dd".toList)
  let month := dateToString st.start ("mm".toList)
  let year := dateToString st.start ("yyyy".toList)
  let fileName := st.title ++ "_".toList ++ dateToString st.start ("yyyymmdd_His".toList)
  st.logsPath ++ "/".toList ++ year ++ "/".toList ++ month ++ "/".toList ++ day
    ++ "/".toList ++ fileName ++ ".html".toList

/-- Embedding of `Log._prepareSave`: records `this.end = now`, then computes
the target path (and ensures the year/month/day directories, a filesystem
effect with no influence on the returned path or state). -/
def Log.prepareSave (st : Log) (now : DateTime) : Log × Str :=
  ({ st with endT := some now }, st.savePath)

/-- Embedding of `Log.save`: update `end`, render the full state, and
overwrite the target file; returns the new state and the single write. -/
def Log.save (st : Log) (now : DateTime) : Log × Write :=
  let p := st.prepareSave now
  (p.1, (p.2, p.1.renderWith now))

/-- Embedding of `Log.createSection` (src/index.js lines 32-42): installs a
fresh section record under `key` (silently replacing any existing record),
then saves.  Never fails. -/
def Log.createSection (st : Log) (name key : Str) (now : DateTime) : Log × Write :=
  let sec : Sec :=
    { key := key, name := name, start := now, endT := now, elapsed := none, logs := [] }
  Log.save { st with sections := setSec key sec st.sections } now

/-- Embedding of `Log.closeSection` (src/index.js lines 48-53): `none` models
the `TypeError` thrown when `this.sections[key]` is `undefined`; otherwise the
section's `end` and `elapsed` are updated in place and the state is saved. -/
def Log.closeSection (st : Log) (key : Str) (now : DateTime) : Option (Log × Write) :=
  match lookupSec key st.sections with
  | none => none
  | some s =>
    let s1 := { s with endT := now, elapsed := some (now.time - s.start.time) }
    some (Log.save { st with sections := setSec key s1 st.sections } now)

/-- Embedding of `Log._getLogObject`: entry with the call-time date formatted
through the fixed template. -/
def getLogObject (type value : Str) (now : DateTime) : Entry :=
  { type := type, value := value, dateTime := dateToString now fmtTpl }

/-- Embedding of `Log._pushLog` (src/index.js lines 89-93): `none` models the
`TypeError` thrown by `this.sections[sectionKey].logs` when the section is
absent — thrown before `this.save()`, so a failing call performs no write and
leaves the state unchanged; otherwise the entry is appended and saved. -/
def Log.pushLog (st : Log) (type sectionKey value : Str) (now : DateTime) :
    Option (Log × Write) :=
  let log := getLogObject type value now
  match lookupSec sectionKey st.sections with
  | none => none
  | some s =>
    let s1 := { s with logs := s.logs ++ [log] }
    some (Log.save { st with sections := setSec sectionKey s1 st.sections } now)

/-- Embedding of `Log.info`. -/
def Log.info (st : Log) (sectionKey value : Str) (now : DateTime) : Option (Log × Write) :=
  st.pushLog ("INFO".toList) sectionKey value now

/-- Embedding of `Log.error`. -/
def Log.error (st : Log) (sectionKey value : Str) (now : DateTime) : Option (Log × Write) :=
  st.pushLog ("ERROR".toList) sectionKey value now

/-- Embedding of `Log.debug`. -/
def Log.debug (st : Log) (sectionKey value : Str) (now : DateTime) : Option (Log × Write) :=
  st.pushLog ("DEBUG".toList) sectionKey value now

/-- Embedding of `Log._logException` (src/index.js lines 139-146): create the
EXCEPTIONS section only when `this.sections["EXCEPTIONS"] === undefined`,
append the entry, then close the section.  Writes accumulate in call order. -/
def Log.logException (st : Log) (type message : Str) (now : DateTime) :
    Option (Log × List Write) :=
  let c :=
    match lookupSec ("EXCEPTIONS".toList) st.sections with
    | none =>
      let r := st.createSection ("Unhandled exceptions".toList) ("EXCEPTIONS".toList) now
      (r.1, [r.2])
    | some _ => (st, [])
  match c.1.pushLog type ("EXCEPTIONS".toList) message now with
  | none => none
  | some r2 =>
    match r2.1.closeSection ("EXCEPTIONS".toList) now with
    | none => none
    | some r3 => some (r3.1, c.2 ++ [r2.2, r3.2])

/-- Embedding of `Log.errorException`. -/
def Log.errorException (st : Log) (exceptionMessage : Str) (now : DateTime) :
    Option (Log × List Write) :=
  st.logException ("ERROR".toList) exceptionMessage now

/-- Embedding of `Log.debugException`. -/
def Log.debugException (st : Log) (exceptionMessage : Str) (now : DateTime) :
    Option (Log × List Write) :=
  st.logException ("DEBUG".toList) exceptionMessage now

/-- Embedding of the constructor (src/index.js lines 14-25). -/
def Log.new (title description logsPath : Str) (now : DateTime) : Log :=
  { title := title, description := description, logsPath := logsPath,
    start := now, endT := none, sections := [] }

/-- One public mutating call of the `Log` API. -/
inductive Op where
  | createSection (name key : Str)
  | closeSection (key : Str)
  | info (sectionKey value : Str)
  | error (sectionKey value : Str)
  | debug (sectionKey value : Str)
  | errorException (m : Str)
  | debugException (m : Str)
  | save
deriving DecidableEq

/-- Execute one public call at instant `now`: the resulting state and the
file writes it performed, or `none` when the call throws. -/
def execOp (st : Log) (op : Op) (now : DateTime) : Option (Log × List Write) :=
  match op with
  | .createSection name key =>
    let r := st.createSection name key now
    some (r.1, [r.2])
  | .closeSection key => (st.closeSection key now).map (fun r => (r.1, [r.2]))
  | .info k v => (st.info k v now).map (fun r => (r.1, [r.2]))
  | .error k v => (st.error k v now).map (fun r => (r.1, [r.2]))
  | .debug k v => (st.debug k v now).map (fun r => (r.1, [r.2]))
  | .errorException m => st.errorException m now
  | .debugException m => st.debugException m now
  | .save =>
    let r := st.save now
    some (r.1, [r.2])

/-- A call result preserves the save path when the state it returns derives
the same path and every write it performed targeted that same path. -/
def preservesPath (st : Log) (res : Option (Log × List Write)) : Prop :=
  ∀ r ∈ res, r.1.savePath = st.savePath ∧ ∀ w ∈ r.2, w.1 = st.savePath

/-- Substring occurrence test (used to state that rendered output embeds a
value verbatim). -/
def containsSub : Str → Str → Bool
  | [], pat => leadsWith pat []
  | c :: cs, pat => leadsWith pat (c :: cs) || containsSub cs pat

/-- Save path as the specification sentence words it:
`logsPath/YYYY/MM/DD/<title>_<YYYYMMDD_HHmmss>.html`, reading `HHmmss` as
fixed-width two-digit zero-padded hour, minute and second (as `MM`/`DD` are
two-digit).  Written from the spec, for comparison with `Log.savePath`. -/
def specSavePathHHmmss (st : Log) : Str :=
  st.logsPath ++ "/".toList ++ natToStr st.start.fullYear ++ "/".toList
    ++ jsPad (st.start.month + 1) ++ "/".toList ++ jsPad st.start.date ++ "/".toList
    ++ st.title ++ "_".toList ++ natToStr st.start.fullYear ++ jsPad (st.start.month + 1)
    ++ jsPad st.start.date ++ "_".toList ++ jsPad st.start.hours ++ jsPad st.start.minutes
    ++ jsPad st.start.seconds ++ ".html".toList

/-- The six replacement tokens of the formatter with their values, in the
order the source applies them. -/
def tokenPairs (d : DateTime) : List (Str × Str) :=
  [(['d', 'd'], jsPad d.date), (['m', 'm'], jsPad (d.month + 1)),
   (['y', 'y', 'y', 'y'], natToStr d.fullYear), (['H'], natToStr d.hours),
   (['i'], natToStr d.minutes), (['s'], natToStr d.seconds)]

/-- Sample later instant 2024-03-05T09:08:00. -/
def dt1 : DateTime :=
  { date := 5, month := 2, fullYear := 2024, hours := 9, minutes := 8,
    seconds := 0, time := 1709629680000 }

/-- Sample later instant 2024-03-05T09:09:30. -/
def dt2 : DateTime :=
  { date := 5, month := 2, fullYear := 2024, hours := 9, minutes := 9,
    seconds := 30, time := 1709629770000 }

/-- Sample logger constructed at the sample date. -/
def exLog : Log := Log.new ("Import".toList) ("desc".toList) ("/tmp/logs".toList) sampleDate

/-- Sample INFO entry recorded at `dt2`. -/
def exEntry : Entry := getLogObject ("INFO".toList) ("started".toList) dt2

/-- Sample open section "P1" holding one entry. -/
def exSec : Sec :=
  { key := "P1".toList, name := "Phase 1".toList, start := dt1, endT := dt1,
    elapsed := none, logs := [exEntry] }

/-- Sample logger state after creating "P1" and logging one entry
(the state `exLog` reaches after `createSection` at `dt1` and `info` at `dt2`). -/
def exStFull : Log :=
  { title := "Import".toList, description := "desc".toList, logsPath := "/tmp/logs".toList,
    start := sampleDate, endT := some dt2, sections := [("P1".toList, exSec)] }

/-- Sample closed EXCEPTIONS section holding one entry. -/
def excSec : Sec :=
  { key := "EXCEPTIONS".toList, name := "Unhandled exceptions".toList, start := dt1,
    endT := dt1, elapsed := some 0,
    logs := [getLogObject ("ERROR".toList) ("boom".toList) dt1] }

/-- Sample logger state owning an EXCEPTIONS section. -/
def exLogExc : Log :=
  { title := "Import".toList, description := "desc".toList, logsPath := "/tmp/logs".toList,
    start := sampleDate, endT := some dt1,
    sections := [("EXCEPTIONS".toList, excSec)] }

/-- Sample state after creating a section keyed "10" at `dt1`. -/
def exNum : Log :=
  ((Log.new ("T".toList) ("D".toList) ("/logs".toList) sampleDate).createSection
    ("A".toList) ("10".toList) dt1).1

/-- Sample state after additionally creating a section keyed "2" at `dt2`. -/
def exNum2 : Log := (exNum.createSection ("B".toList) ("2".toList) dt2).1

/-- Specification-level description of the rendered document: after the fixed
head and summary, one table-of-contents link per section and one block per
section, both in enumeration order, and inside each block exactly one line
per log entry, in insertion order, showing the entry's type, dateTime and
value as `TYPE (dateTime): value`. -/
def renderDocSpec (st : Log) (e : DateTime) : Str :=
  htmlA ++ st.title ++ " - ".toList ++ dateToString st.start fmtTpl
    ++ htmlB ++ st.title ++ htmlC ++ st.description
    ++ htmlD ++ dateToString st.start fmtTpl ++ htmlE ++ dateToString e fmtTpl
    ++ htmlF
    ++ ((jsOwnOrder st.sections).map (fun p =>
          tocA ++ p.2.key ++ tocB ++ p.2.name ++ tocC)).flatten
    ++ htmlG
    ++ ((jsOwnOrder st.sections).map (fun p =>
          blkA ++ p.2.key ++ blkB ++ p.2.name ++ blkC ++ dateToString p.2.start fmtTpl
            ++ blkD ++ dateToString p.2.endT fmtTpl ++ blkE
            ++ (p.2.logs.map (fun l =>
                  lineA ++ l.type ++ lineB ++ l.type ++ lineC ++ l.dateTime
                    ++ lineD ++ l.value ++ lineE)).flatten
            ++ blkF)).flatten
    ++ htmlH

/-! ### String lemmas -/

theorem foldl_append_flatten {α : Type} (f : α → Str) (l : List α) (acc : Str) :
    l.foldl (fun a x => a ++ f x) acc = acc ++ (l.map f).flatten := by
  induction l generalizing acc with
  | nil => simp
  | cons x xs ih => simp [List.foldl_cons, ih, List.append_assoc]

theorem leadsWith_append_self (p b : Str) : leadsWith p (p ++ b) = true := by
  induction p with
  | nil => rfl
  | cons c cs ih => simp [leadsWith, ih]

theorem leadsWith_extend {p a : Str} (h : leadsWith p a = true) (b : Str) :
    leadsWith p (a ++ b) = true := by
  induction p generalizing a with
  | nil => rfl
  | cons c cs ih =>
    cases a with
    | nil => simp [leadsWith] at h
    | cons x xs =>
      simp only [leadsWith, Bool.and_eq_true, decide_eq_true_eq] at h
      simp [leadsWith, h.1, ih h.2]

theorem mem_of_leadsWith {p s : Str} (h : leadsWith p s = true) : ∀ c ∈ p, c ∈ s := by
  induction p generalizing s with
  | nil => simp
  | cons a as ih =>
    cases s with
    | nil => simp [leadsWith] at h
    | cons b bs =>
      simp only [leadsWith, Bool.and_eq_true, decide_eq_true_eq] at h
      intro c hc
      rcases List.mem_cons.mp hc with rfl | hc
      · exact h.1 ▸ List.mem_cons_self _ _
      · exact List.mem_cons_of_mem _ (ih h.2 c hc)

theorem replaceFirst_of_not_mem {x : Char} {pat s : Str} (hx : x ∈ pat) (hs : x ∉ s)
    (rep : Str) : replaceFirst s pat rep = s := by
  induction s with
  | nil =>
    cases pat with
    | nil => simp at hx
    | cons a as => simp [replaceFirst, leadsWith]
  | cons c cs ih =>
    have hlw : ¬ leadsWith pat (c :: cs) = true := fun hco => hs (mem_of_leadsWith hco x hx)
    simp only [replaceFirst, if_neg hlw, List.cons.injEq, true_and]
    exact ih fun hm => hs (List.mem_cons_of_mem _ hm)

theorem replaceFirst_append_head {a : Str} {x : Char} (h : x ∉ a) (ps b rep : Str) :
    replaceFirst (a ++ b) (x :: ps) rep = a ++ replaceFirst b (x :: ps) rep := by
  induction a with
  | nil => simp
  | cons c cs ih =>
    have hcx : ¬ (x = c) := fun he => h (he ▸ List.mem_cons_self _ _)
    have hlw : ¬ leadsWith (x :: ps) (c :: (cs ++ b)) = true := by
      simp [leadsWith, hcx]
    calc replaceFirst ((c :: cs) ++ b) (x :: ps) rep
        = c :: replaceFirst (cs ++ b) (x :: ps) rep := by
          rw [List.cons_append, replaceFirst, if_neg hlw]
      _ = c :: (cs ++ replaceFirst b (x :: ps) rep) := by
          rw [ih fun hm => h (List.mem_cons_of_mem _ hm)]
      _ = (c :: cs) ++ replaceFirst b (x :: ps) rep := by rw [List.cons_append]

theorem replaceFirst_first_occur {pat : Str} (hp : pat ≠ []) (a b rep : Str)
    (h : ∀ j < a.length, leadsWith pat ((a ++ pat ++ b).drop j) = false) :
    replaceFirst (a ++ pat ++ b) pat rep = a ++ rep ++ b := by
  induction a with
  | nil =>
    cases pat with
    | nil => exact absurd rfl hp
    | cons p ps =>
      have hlw : leadsWith (p :: ps) ((p :: ps) ++ b) = true := leadsWith_append_self _ _
      simp only [List.nil_append, List.cons_append]
      rw [replaceFirst, if_pos (by simpa [List.cons_append] using hlw)]
      simp [List.drop_left']
  | cons c cs ih =>
    have h0 : ¬ leadsWith pat (c :: (cs ++ pat ++ b)) = true := by
      have := h 0 (by simp)
      simpa using this
    have ih' := ih fun j hj => by
      have := h (j + 1) (by simpa using Nat.succ_lt_succ hj)
      simpa using this
    calc replaceFirst ((c :: cs) ++ pat ++ b) pat rep
        = c :: replaceFirst (cs ++ pat ++ b) pat rep := by
          simp only [List.cons_append]
          rw [replaceFirst, if_neg (by simpa [List.cons_append] using h0)]
      _ = c :: (cs ++ rep ++ b) := by rw [ih']
      _ = (c :: cs) ++ rep ++ b := by simp

theorem digitCh_bounds (n : Nat) : 48 ≤ (digitCh n).toNat ∧ (digitCh n).toNat ≤ 57 := by
  unfold digitCh
  split_ifs <;> decide

theorem natToStrGo_digits (fuel : Nat) : ∀ (n : Nat) (acc : Str),
    (∀ c ∈ acc, 48 ≤ c.toNat ∧ c.toNat ≤ 57) →
    ∀ c ∈ natToStrGo fuel n acc, 48 ≤ c.toNat ∧ c.toNat ≤ 57 := by
  induction fuel with
  | zero => intro n acc hacc; simpa [natToStrGo] using hacc
  | succ f ih =>
    intro n acc hacc
    simp only [natToStrGo]
    split
    · intro c hc
      rcases List.mem_cons.mp hc with rfl | hc
      · exact digitCh_bounds n
      · exact hacc c hc
    · refine ih _ _ ?_
      intro c hc
      rcases List.mem_cons.mp hc with rfl | hc
      · exact digitCh_bounds _
      · exact hacc c hc

theorem natToStr_digits (n : Nat) : ∀ c ∈ natToStr n, 48 ≤ c.toNat ∧ c.toNat ≤ 57 :=
  natToStrGo_digits _ _ _ (by simp)

theorem jsPad_digits (n : Nat) : ∀ c ∈ jsPad n, 48 ≤ c.toNat ∧ c.toNat ≤ 57 := by
  unfold jsPad
  split
  · intro c hc
    rcases List.mem_cons.mp hc with rfl | hc
    · decide
    · exact natToStr_digits _ c hc
  · exact natToStr_digits _

theorem not_mem_of_digits {s : Str} (hd : ∀ c ∈ s, 48 ≤ c.toNat ∧ c.toNat ≤ 57)
    {x : Char} (hx : 57 < x.toNat) : x ∉ s := by
  intro hm
  have := hd x hm
  omega

theorem replaceFirst_digits (x : Char) {s : Str} (hd : ∀ c ∈ s, 48 ≤ c.toNat ∧ c.toNat ≤ 57)
    (ps rep : Str) (hx : 57 < x.toNat) : replaceFirst s (x :: ps) rep = s :=
  replaceFirst_of_not_mem (List.mem_cons_self _ _) (not_mem_of_digits hd hx) rep

/-! ### Formatter characterisations on the templates the source uses -/

theorem dts_dd (d : DateTime) : dateToString d ['d', 'd'] = jsPad d.date := by
  have hD := jsPad_digits d.date
  simp only [dateToString]
  rw [show replaceFirst ['d', 'd'] ['d', 'd'] (jsPad d.date) = jsPad d.date ++ [] from rfl,
    List.append_nil,
    replaceFirst_digits 'm' hD _ _ (by decide),
    replaceFirst_digits 'y' hD _ _ (by decide),
    replaceFirst_digits 'H' hD _ _ (by decide),
    replaceFirst_digits 'i' hD _ _ (by decide),
    replaceFirst_digits 's' hD _ _ (by decide)]

theorem dts_mm (d : DateTime) : dateToString d ['m', 'm'] = jsPad (d.month + 1) := by
  have hM := jsPad_digits (d.month + 1)
  simp only [dateToString]
  rw [replaceFirst_of_not_mem (show 'd' ∈ ['d', 'd'] by decide)
      (show 'd' ∉ ['m', 'm'] by decide) _,
    show replaceFirst ['m', 'm'] ['m', 'm'] (jsPad (d.month + 1))
      = jsPad (d.month + 1) ++ [] from rfl,
    List.append_nil,
    replaceFirst_digits 'y' hM _ _ (by decide),
    replaceFirst_digits 'H' hM _ _ (by decide),
    replaceFirst_digits 'i' hM _ _ (by decide),
    replaceFirst_digits 's' hM _ _ (by decide)]

theorem dts_yyyy (d : DateTime) : dateToString d ['y', 'y', 'y', 'y'] = natToStr d.fullYear := by
  have hY := natToStr_digits d.fullYear
  simp only [dateToString]
  rw [replaceFirst_of_not_mem (show 'd' ∈ ['d', 'd'] by decide)
      (show 'd' ∉ ['y', 'y', 'y', 'y'] by decide) _,
    replaceFirst_of_not_mem (show 'm' ∈ ['m', 'm'] by decide)
      (show 'm' ∉ ['y', 'y', 'y', 'y'] by decide) _,
    show replaceFirst ['y', 'y', 'y', 'y'] ['y', 'y', 'y', 'y'] (natToStr d.fullYear)
      = natToStr d.fullYear ++ [] from rfl,
    List.append_nil,
    replaceFirst_digits 'H' hY _ _ (by decide),
    replaceFirst_digits 'i' hY _ _ (by decide),
    replaceFirst_digits 's' hY _ _ (by decide)]

theorem dts_H (d : DateTime) : dateToString d ['H'] = natToStr d.hours := by
  have h := natToStr_digits d.hours
  simp only [dateToString]
  rw [replaceFirst_of_not_mem (show 'd' ∈ ['d', 'd'] by decide) (show 'd' ∉ ['H'] by decide) _,
    replaceFirst_of_not_mem (show 'm' ∈ ['m', 'm'] by decide) (show 'm' ∉ ['H'] by decide) _,
    replaceFirst_of_not_mem (show 'y' ∈ ['y', 'y', 'y', 'y'] by decide)
      (show 'y' ∉ ['H'] by decide) _,
    show replaceFirst ['H'] ['H'] (natToStr d.hours) = natToStr d.hours ++ [] from rfl,
    List.append_nil,
    replaceFirst_digits 'i' h _ _ (by decide),
    replaceFirst_digits 's' h _ _ (by decide)]

theorem dts_i (d : DateTime) : dateToString d ['i'] = natToStr d.minutes := by
  have h := natToStr_digits d.minutes
  simp only [dateToString]
  rw [replaceFirst_of_not_mem (show 'd' ∈ ['d', 'd'] by decide) (show 'd' ∉ ['i'] by decide) _,
    replaceFirst_of_not_mem (show 'm' ∈ ['m', 'm'] by decide) (show 'm' ∉ ['i'] by decide) _,
    replaceFirst_of_not_mem (show 'y' ∈ ['y', 'y', 'y', 'y'] by decide)
      (show 'y' ∉ ['i'] by decide) _,
    replaceFirst_of_not_mem (show 'H' ∈ ['H'] by decide) (show 'H' ∉ ['i'] by decide) _,
    show replaceFirst ['i'] ['i'] (natToStr d.minutes) = natToStr d.minutes ++ [] from rfl,
    List.append_nil,
    replaceFirst_digits 's' h _ _ (by decide)]

theorem dts_s (d : DateTime) : dateToString d ['s'] = natToStr d.seconds := by
  simp only [dateToString]
  rw [replaceFirst_of_not_mem (show 'd' ∈ ['d', 'd'] by decide) (show 'd' ∉ ['s'] by decide) _,
    replaceFirst_of_not_mem (show 'm' ∈ ['m', 'm'] by decide) (show 'm' ∉ ['s'] by decide) _,
    replaceFirst_of_not_mem (show 'y' ∈ ['y', 'y', 'y', 'y'] by decide)
      (show 'y' ∉ ['s'] by decide) _,
    replaceFirst_of_not_mem (show 'H' ∈ ['H'] by decide) (show 'H' ∉ ['s'] by decide) _,
    replaceFirst_of_not_mem (show 'i' ∈ ['i'] by decide) (show 'i' ∉ ['s'] by decide) _,
    show replaceFirst ['s'] ['s'] (natToStr d.seconds) = natToStr d.seconds ++ [] from rfl,
    List.append_nil]

theorem dts_stamp (d : DateTime) :
    dateToString d ['y', 'y', 'y', 'y', 'm', 'm', 'd', 'd', '_', 'H', 'i', 's'] =
      natToStr d.fullYear ++ (jsPad (d.month + 1) ++ (jsPad d.date ++ (['_'] ++
        (natToStr d.hours ++ (natToStr d.minutes ++ natToStr d.seconds))))) := by
  have hY := natToStr_digits d.fullYear
  have hM := jsPad_digits (d.month + 1)
  have hD := jsPad_digits d.date
  have hH := natToStr_digits d.hours
  have hMin := natToStr_digits d.minutes
  simp only [dateToString]
  rw [show replaceFirst ['y', 'y', 'y', 'y', 'm', 'm', 'd', 'd', '_', 'H', 'i', 's'] ['d', 'd']
        (jsPad d.date)
      = 'y' :: 'y' :: 'y' :: 'y' :: 'm' :: 'm' :: (jsPad d.date ++ ['_', 'H', 'i', 's']) from rfl]
  rw [show replaceFirst
        ('y' :: 'y' :: 'y' :: 'y' :: 'm' :: 'm' :: (jsPad d.date ++ ['_', 'H', 'i', 's']))
        ['m', 'm'] (jsPad (d.month + 1))
      = 'y' :: 'y' :: 'y' :: 'y' :: (jsPad (d.month + 1) ++ (jsPad d.date ++ ['_', 'H', 'i', 's']))
      from rfl]
  rw [show replaceFirst
        ('y' :: 'y' :: 'y' :: 'y' :: (jsPad (d.month + 1) ++ (jsPad d.date ++ ['_', 'H', 'i', 's'])))
        ['y', 'y', 'y', 'y'] (natToStr d.fullYear)
      = natToStr d.fullYear ++ (jsPad (d.month + 1) ++ (jsPad d.date ++ ['_', 'H', 'i', 's']))
      from rfl]
  rw [replaceFirst_append_head (not_mem_of_digits hY (by decide)) _ _ _,
    replaceFirst_append_head (not_mem_of_digits hM (by decide)) _ _ _,
    replaceFirst_append_head (not_mem_of_digits hD (by decide)) _ _ _,
    show replaceFirst ['_', 'H', 'i', 's'] ['H'] (natToStr d.hours)
      = ['_'] ++ (natToStr d.hours ++ ['i', 's']) from rfl]
  rw [replaceFirst_append_head (not_mem_of_digits hY (by decide)) _ _ _,
    replaceFirst_append_head (not_mem_of_digits hM (by decide)) _ _ _,
    replaceFirst_append_head (not_mem_of_digits hD (by decide)) _ _ _,
    replaceFirst_append_head (show 'i' ∉ ['_'] by decide) _ _ _,
    replaceFirst_append_head (not_mem_of_digits hH (by decide)) _ _ _,
    show replaceFirst ['i', 's'] ['i'] (natToStr d.minutes)
      = natToStr d.minutes ++ ['s'] from rfl]
  rw [replaceFirst_append_head (not_mem_of_digits hY (by decide)) _ _ _,
    replaceFirst_append_head (not_mem_of_digits hM (by decide)) _ _ _,
    replaceFirst_append_head (not_mem_of_digits hD (by decide)) _ _ _,
    replaceFirst_append_head (show 's' ∉ ['_'] by decide) _ _ _,
    replaceFirst_append_head (not_mem_of_digits hH (by decide)) _ _ _,
    replaceFirst_append_head (not_mem_of_digits hMin (by decide)) _ _ _,
    show replaceFirst ['s'] ['s'] (natToStr d.seconds) = natToStr d.seconds ++ [] from rfl,
    List.append_nil]

/-! ### Section map lemmas -/

theorem lookupSec_setSec_self (key : Str) (v : Sec) (l : List (Str × Sec)) :
    lookupSec key (setSec key v l) = some v := by
  induction l with
  | nil => simp [setSec, lookupSec]
  | cons p ps ih =>
    by_cases h : p.1 = key
    · simp [setSec, lookupSec, h]
    · simp [setSec, lookupSec, h, ih]

theorem lookupSec_setSec_ne {k' key : Str} (h : k' ≠ key) (v : Sec) (l : List (Str × Sec)) :
    lookupSec k' (setSec key v l) = lookupSec k' l := by
  have h' : ¬ key = k' := fun he => h he.symm
  induction l with
  | nil => simp [setSec, lookupSec, h']
  | cons p ps ih =>
    by_cases hp : p.1 = key
    · simp [setSec, lookupSec, hp, h', ih]
    · simp [setSec, lookupSec, hp, ih]

theorem setSec_of_lookup_none {key : Str} {l : List (Str × Sec)}
    (h : lookupSec key l = none) (v : Sec) : setSec key v l = l ++ [(key, v)] := by
  induction l with
  | nil => simp [setSec]
  | cons p ps ih =>
    by_cases hp : p.1 = key
    · simp [lookupSec, hp] at h
    · simp only [lookupSec, hp, if_false] at h
      simp [setSec, hp, ih h]

theorem mem_of_lookupSec {key : Str} {l : List (Str × Sec)} {s : Sec}
    (h : lookupSec key l = some s) : (key, s) ∈ l := by
  induction l with
  | nil => simp [lookupSec] at h
  | cons p ps ih =>
    cases p with
    | mk pk pv =>
      by_cases hp : pk = key
      · simp [lookupSec, hp] at h
        exact h ▸ hp ▸ List.mem_cons_self _ _
      · simp only [lookupSec, hp, if_false] at h
        exact List.mem_cons_of_mem _ (ih h)

/-! ### Enumeration order lemmas -/

theorem mem_insertNum {q : Str × Sec} (p : Str × Sec) (l : List (Str × Sec))
    (h : q = p ∨ q ∈ l) : q ∈ insertNum p l := by
  induction l with
  | nil =>
    rcases h with rfl | h
    · exact List.mem_cons_self _ _
    · simp at h
  | cons r rs ih =>
    simp only [insertNum]
    split
    · rcases h with rfl | h
      · exact List.mem_cons_self _ _
      · exact List.mem_cons_of_mem _ h
    · rcases h with rfl | h
      · exact List.mem_cons_of_mem _ (ih (Or.inl rfl))
      · rcases List.mem_cons.mp h with rfl | h
        · exact List.mem_cons_self _ _
        · exact List.mem_cons_of_mem _ (ih (Or.inr h))

theorem mem_sortNum {q : Str × Sec} {l : List (Str × Sec)} (h : q ∈ l) : q ∈ sortNum l := by
  induction l with
  | nil => simp at h
  | cons p ps ih =>
    simp only [sortNum]
    rcases List.mem_cons.mp h with rfl | h
    · exact mem_insertNum _ _ (Or.inl rfl)
    · exact mem_insertNum _ _ (Or.inr (ih h))

theorem mem_jsOwnOrder {p : Str × Sec} {l : List (Str × Sec)} (h : p ∈ l) :
    p ∈ jsOwnOrder l := by
  unfold jsOwnOrder
  by_cases hk : isArrayIndexKey p.1
  · exact List.mem_append_left _ (mem_sortNum (List.mem_filter.mpr ⟨h, by simp [hk]⟩))
  · exact List.mem_append_right _ (List.mem_filter.mpr ⟨h, by simp [hk]⟩)

theorem jsOwnOrder_eq_self {l : List (Str × Sec)}
    (h : ∀ p ∈ l, isArrayIndexKey p.1 = false) : jsOwnOrder l = l := by
  unfold jsOwnOrder
  have h1 : l.filter (fun p => isArrayIndexKey p.1) = [] := by
    rw [List.filter_eq_nil_iff]
    intro a ha
    simp [h a ha]
  have h2 : l.filter (fun p => !isArrayIndexKey p.1) = l := by
    rw [List.filter_eq_self]
    intro a ha
    simp [h a ha]
  rw [h1, h2]
  simp [sortNum]

/-! ### Render refinement: accumulation loops as map and flatten -/

theorem tocLoop_eq (l : List Sec) : tocLoop l = (l.map tocItem).flatten := by
  simp [tocLoop, foldl_append_flatten]

theorem logsLoop_eq (l : List Entry) : logsLoop l = (l.map logLine).flatten := by
  simp [logsLoop, foldl_append_flatten]

theorem bodyLoop_eq (l : List Sec) : bodyLoop l = (l.map secBlock).flatten := by
  simp [bodyLoop, foldl_append_flatten]

theorem logLine_def :
    logLine = fun l =>
      lineA ++ (l.type ++ (lineB ++ (l.type ++ (lineC ++ (l.dateTime ++ (lineD ++
        (l.value ++ lineE))))))) := by
  funext l
  simp [logLine]

theorem renderWith_eq_spec (st : Log) (e : DateTime) :
    st.renderWith e = renderDocSpec st e := by
  simp [Log.renderWith, renderDocSpec, tocLoop_eq, bodyLoop_eq, logsLoop_eq, List.map_map,
    tocItem, secBlock, logLine_def, Function.comp_def]

/-! ### Substring occurrence lemmas -/

theorem containsSub_head {s pat : Str} (h : leadsWith pat s = true) : containsSub s pat = true := by
  cases s with
  | nil => simpa [containsSub] using h
  | cons c cs => simp [containsSub, h]

theorem containsSub_append_right {b pat : Str} (h : containsSub b pat = true) (a : Str) :
    containsSub (a ++ b) pat = true := by
  induction a with
  | nil => simpa
  | cons c cs ih =>
    simp only [List.cons_append, containsSub, Bool.or_eq_true]
    exact Or.inr ih

theorem containsSub_append_left {a pat : Str} (h : containsSub a pat = true) (b : Str) :
    containsSub (a ++ b) pat = true := by
  induction a with
  | nil =>
    cases pat with
    | nil => cases b <;> simp [containsSub, leadsWith]
    | cons p ps => simp [containsSub, leadsWith] at h
  | cons c cs ih =>
    simp only [containsSub, Bool.or_eq_true] at h
    simp only [List.cons_append, containsSub, Bool.or_eq_true]
    rcases h with h | h
    · exact Or.inl (leadsWith_extend h b)
    · exact Or.inr (ih h)

theorem containsSub_middle (a pat b : Str) : containsSub (a ++ (pat ++ b)) pat = true :=
  containsSub_append_right (containsSub_head (leadsWith_append_self pat b)) a

theorem containsSub_flatten_of_mem {α : Type} {l : List α} {x : α} (f : α → Str) (hx : x ∈ l)
    {pat : Str} (h : containsSub (f x) pat = true) :
    containsSub ((l.map f).flatten) pat = true := by
  induction l with
  | nil => simp at hx
  | cons a as ih =>
    simp only [List.map_cons, List.flatten_cons]
    rcases List.mem_cons.mp hx with rfl | hx'
    · exact containsSub_append_left h _
    · exact containsSub_append_right (ih hx') _

/-! ### Save path lemmas -/

theorem savePath_decomp (st : Log) :
    st.savePath
      = st.logsPath ++ "/".toList ++ natToStr st.start.fullYear ++ "/".toList
        ++ jsPad (st.start.month + 1) ++ "/".toList ++ jsPad st.start.date ++ "/".toList
        ++ (st.title ++ "_".toList
            ++ (natToStr st.start.fullYear ++ (jsPad (st.start.month + 1) ++ (jsPad st.start.date
                ++ (['_'] ++ (natToStr st.start.hours ++ (natToStr st.start.minutes
                    ++ natToStr st.start.seconds)))))))
        ++ ".html".toList := by
  simp only [Log.savePath]
  rw [show ("dd".toList : Str) = ['d', 'd'] from rfl,
    show ("mm".toList : Str) = ['m', 'm'] from rfl,
    show ("yyyy".toList : Str) = ['y', 'y', 'y', 'y'] from rfl,
    show ("yyyymmdd_His".toList : Str)
      = ['y', 'y', 'y', 'y', 'm', 'm', 'd', 'd', '_', 'H', 'i', 's'] from rfl,
    dts_dd, dts_mm, dts_yyyy, dts_stamp]

theorem execOp_preservesPath (st : Log) (op : Op) (now : DateTime) :
    preservesPath st (execOp st op now) := by
  intro r hr
  cases op with
  | createSection name key =>
    simp only [execOp, Log.createSection, Log.save, Log.prepareSave, Option.mem_def,
      Option.some.injEq] at hr
    subst hr
    refine ⟨rfl, ?_⟩
    intro w hw
    simp only [List.mem_cons, List.not_mem_nil, or_false] at hw
    subst hw
    rfl
  | closeSection key =>
    simp only [execOp, Log.closeSection] at hr
    cases hE : lookupSec key st.sections with
    | none => rw [hE] at hr; simp at hr
    | some s =>
      rw [hE] at hr
      simp only [Log.save, Log.prepareSave, Option.mem_def, Option.map_some',
        Option.some.injEq] at hr
      subst hr
      refine ⟨rfl, ?_⟩
      intro w hw
      simp only [List.mem_cons, List.not_mem_nil, or_false] at hw
      subst hw
      rfl
  | info k v =>
    simp only [execOp, Log.info, Log.pushLog] at hr
    cases hE : lookupSec k st.sections with
    | none => rw [hE] at hr; simp at hr
    | some s =>
      rw [hE] at hr
      simp only [Log.save, Log.prepareSave, Option.mem_def, Option.map_some',
        Option.some.injEq] at hr
      subst hr
      refine ⟨rfl, ?_⟩
      intro w hw
      simp only [List.mem_cons, List.not_mem_nil, or_false] at hw
      subst hw
      rfl
  | error k v =>
    simp only [execOp, Log.error, Log.pushLog] at hr
    cases hE : lookupSec k st.sections with
    | none => rw [hE] at hr; simp at hr
    | some s =>
      rw [hE] at hr
      simp only [Log.save, Log.prepareSave, Option.mem_def, Option.map_some',
        Option.some.injEq] at hr
      subst hr
      refine ⟨rfl, ?_⟩
      intro w hw
      simp only [List.mem_cons, List.not_mem_nil, or_false] at hw
      subst hw
      rfl
  | debug k v =>
    simp only [execOp, Log.debug, Log.pushLog] at hr
    cases hE : lookupSec k st.sections with
    | none => rw [hE] at hr; simp at hr
    | some s =>
      rw [hE] at hr
      simp only [Log.save, Log.prepareSave, Option.mem_def, Option.map_some',
        Option.some.injEq] at hr
      subst hr
      refine ⟨rfl, ?_⟩
      intro w hw
      simp only [List.mem_cons, List.not_mem_nil, or_false] at hw
      subst hw
      rfl
  | errorException m =>
    simp only [execOp, Log.errorException, Log.logException] at hr
    cases hE : lookupSec ("EXCEPTIONS".toList) st.sections with
    | none =>
      rw [hE] at hr
      simp only [Log.createSection, Log.pushLog, Log.closeSection, Log.save, Log.prepareSave,
        lookupSec_setSec_self, Option.mem_def, Option.some.injEq] at hr
      subst hr
      refine ⟨rfl, ?_⟩
      intro w hw
      simp only [List.cons_append, List.nil_append, List.mem_cons, List.not_mem_nil,
        or_false] at hw
      rcases hw with rfl | rfl | rfl <;> rfl
    | some s =>
      rw [hE] at hr
      simp only [Log.pushLog, Log.closeSection, Log.save, Log.prepareSave, hE,
        lookupSec_setSec_self, Option.mem_def, Option.some.injEq] at hr
      subst hr
      refine ⟨rfl, ?_⟩
      intro w hw
      simp only [List.nil_append, List.mem_cons, List.not_mem_nil, or_false] at hw
      rcases hw with rfl | rfl <;> rfl
  | debugException m =>
    simp only [execOp, Log.debugException, Log.logException] at hr
    cases hE : lookupSec ("EXCEPTIONS".toList) st.sections with
    | none =>
      rw [hE] at hr
      simp only [Log.createSection, Log.pushLog, Log.closeSection, Log.save, Log.prepareSave,
        lookupSec_setSec_self, Option.mem_def, Option.some.injEq] at hr
      subst hr
      refine ⟨rfl, ?_⟩
      intro w hw
      simp only [List.cons_append, List.nil_append, List.mem_cons, List.not_mem_nil,
        or_false] at hw
      rcases hw with rfl | rfl | rfl <;> rfl
    | some s =>
      rw [hE] at hr
      simp only [Log.pushLog, Log.closeSection, Log.save, Log.prepareSave, hE,
        lookupSec_setSec_self, Option.mem_def, Option.some.injEq] at hr
      subst hr
      refine ⟨rfl, ?_⟩
      intro w hw
      simp only [List.nil_append, List.mem_cons, List.not_mem_nil, or_false] at hw
      rcases hw with rfl | rfl <;> rfl
  | save =>
    simp only [execOp, Log.save, Log.prepareSave, Option.mem_def, Option.some.injEq] at hr
    subst hr
    refine ⟨rfl, ?_⟩
    intro w hw
    simp only [List.mem_cons, List.not_mem_nil, or_false] at hw
    subst hw
    rfl

/-! ### Claim theorems -/

/-- C3: for every logger state and section key `k` absent from `sections`
(and different from "EXCEPTIONS"), `info`, `error` and `debug` fail with the
lookup `TypeError` (`this.sections[k].logs` on `undefined`), modelled as
`none`: the exception is raised before `this.save()` runs, so no successor
state exists and no file write is performed. -/
theorem claim_C3_missing_section (st : Log) (k v : Str) (t : DateTime)
    (hk : k ≠ "EXCEPTIONS".toList) (h : lookupSec k st.sections = none) :
    st.info k v t = none ∧ st.error k v t = none ∧ st.debug k v t = none := by
  refine ⟨?_, ?_, ?_⟩ <;> simp [Log.info, Log.error, Log.debug, Log.pushLog, h]

/-- Witness for C3 at a concrete state: section "missing" was never created. -/
theorem claim_C3_witness :
    exStFull.info ("missing".toList) ("x".toList) dt2 = none
      ∧ exStFull.error ("missing".toList) ("x".toList) dt2 = none
      ∧ exStFull.debug ("missing".toList) ("x".toList) dt2 = none :=
  claim_C3_missing_section exStFull ("missing".toList) ("x".toList) dt2 (by decide) rfl

/-- C5: `closeSection` on a never-created key throws the lookup `TypeError`
(`none`); on an existing section it sets `end` to the call instant and
`elapsed` to `end.time - start.time` in integer milliseconds, which is
nonnegative whenever the close does not precede the section's creation. -/
theorem claim_C5_closeSection (st stB : Log) (k kB : Str) (t : DateTime) (s : Sec)
    (hnone : lookupSec k st.sections = none)
    (hsome : lookupSec kB stB.sections = some s)
    (horder : s.start.time ≤ t.time) :
    st.closeSection k t = none
      ∧ (stB.closeSection kB t).map (fun r => lookupSec kB r.1.sections)
          = some (some { s with endT := t, elapsed := some (t.time - s.start.time) })
      ∧ 0 ≤ t.time - s.start.time := by
  refine ⟨?_, ?_, by omega⟩
  · simp [Log.closeSection, hnone]
  · simp only [Log.closeSection, hsome, Log.save, Log.prepareSave, Option.map_some',
      lookupSec_setSec_self]

/-- Witness for C5: closing the missing key "Q" throws, closing "P1" at `dt2`
stores elapsed `dt2.time - dt1.time` = 90000 ms ≥ 0. -/
theorem claim_C5_witness :
    exStFull.closeSection ("Q".toList) dt2 = none
      ∧ (exStFull.closeSection ("P1".toList) dt2).map
          (fun r => lookupSec ("P1".toList) r.1.sections)
          = some (some { exSec with
                           endT := dt2,
                           elapsed := some (dt2.time - exSec.start.time) })
      ∧ 0 ≤ dt2.time - exSec.start.time :=
  claim_C5_closeSection exStFull exStFull ("Q".toList) ("P1".toList) dt2 exSec rfl rfl
    (by decide)

/-- C7: `createSection` never fails (it is total) and installs, for any state
and any key — also a key that already owns a section — a fresh record whose
`start` and `end` are the call instant, whose `elapsed` is empty and whose
log list is empty, leaving every other key's record untouched: a repeated key
silently loses its previous record including all its logs.  The final
conjunct records that the triggered save stamped `this.end`. -/
theorem claim_C7_createSection (st : Log) (name key k' : Str) (t : DateTime) (hk : k' ≠ key) :
    lookupSec key ((st.createSection name key t).1.sections)
        = some { key := key, name := name, start := t, endT := t, elapsed := none, logs := [] }
      ∧ lookupSec k' ((st.createSection name key t).1.sections) = lookupSec k' st.sections
      ∧ (st.createSection name key t).1.endT = some t := by
  refine ⟨?_, ?_, rfl⟩
  · simp only [Log.createSection, Log.save, Log.prepareSave]
    exact lookupSec_setSec_self _ _ _
  · simp only [Log.createSection, Log.save, Log.prepareSave]
    exact lookupSec_setSec_ne hk _ _

/-- Witness for C7 at a state where key "P1" already holds a section with one
log entry: re-creating "P1" replaces it with an empty fresh record. -/
theorem claim_C7_witness :
    lookupSec ("P1".toList)
        ((exStFull.createSection ("Phase 1 again".toList) ("P1".toList) dt2).1.sections)
        = some { key := "P1".toList, name := "Phase 1 again".toList, start := dt2,
                 endT := dt2, elapsed := none, logs := [] }
      ∧ lookupSec ("OTHER".toList)
          ((exStFull.createSection ("Phase 1 again".toList) ("P1".toList) dt2).1.sections)
          = lookupSec ("OTHER".toList) exStFull.sections
      ∧ (exStFull.createSection ("Phase 1 again".toList) ("P1".toList) dt2).1.endT = some dt2 :=
  claim_C7_createSection exStFull ("Phase 1 again".toList) ("P1".toList) ("OTHER".toList) dt2
    (by decide)

/-- C8: the formatter zero-pads day and month to two digits (a leading `'0'`
below ten) and substitutes year, hour, minute and second without padding; at
2024-03-05T09:07:03 with template `dd/mm/yyyy H:i:s` it yields exactly
`05/03/2024 9:7:3`. -/
theorem claim_C8_formatting (dA dB : DateTime) (hA : dA.date < 10) (hAm : dA.month + 1 < 10) :
    dateToString dA ("dd".toList) = '0' :: natToStr dA.date
      ∧ dateToString dA ("mm".toList) = '0' :: natToStr (dA.month + 1)
      ∧ dateToString dB ("yyyy".toList) = natToStr dB.fullYear
      ∧ dateToString dB ("H".toList) = natToStr dB.hours
      ∧ dateToString dB ("i".toList) = natToStr dB.minutes
      ∧ dateToString dB ("s".toList) = natToStr dB.seconds
      ∧ dateToString sampleDate ("dd/mm/yyyy H:i:s".toList) = "05/03/2024 9:7:3".toList := by
  refine ⟨?_, ?_, ?_, ?_, ?_, ?_, by decide⟩
  · rw [show ("dd".toList : Str) = ['d', 'd'] from rfl, dts_dd]
    simp [jsPad, hA]
  · rw [show ("mm".toList : Str) = ['m', 'm'] from rfl, dts_mm]
    simp [jsPad, hAm]
  · rw [show ("yyyy".toList : Str) = ['y', 'y', 'y', 'y'] from rfl, dts_yyyy]
  · rw [show ("H".toList : Str) = ['H'] from rfl, dts_H]
  · rw [show ("i".toList : Str) = ['i'] from rfl, dts_i]
  · rw [show ("s".toList : Str) = ['s'] from rfl, dts_s]

/-- C1: rendering any logger state produces the document described by
`renderDocSpec`: per section, in enumeration order, one block holding exactly
one line per recorded entry, in insertion order, each line showing the
entry's type, dateTime and value; and recording an entry through `_pushLog`
(hence `info`/`error`/`debug`) appends exactly one entry at the end of the
addressed section's list and leaves every other section unchanged, so a
section's list is its recorded entries in recording order. -/
theorem claim_C1_render_entries (st : Log) (e t : DateTime) (ty k k' v : Str) (s : Sec)
    (hE : st.endT = some e) (hs : lookupSec k st.sections = some s) (hk : k' ≠ k) :
    st.render = some (renderDocSpec st e)
      ∧ (st.pushLog ty k v t).map (fun r => lookupSec k r.1.sections)
          = some (some { s with logs := s.logs ++ [getLogObject ty v t] })
      ∧ (st.pushLog ty k v t).map (fun r => lookupSec k' r.1.sections)
          = some (lookupSec k' st.sections) := by
  refine ⟨?_, ?_, ?_⟩
  · rw [Log.render, hE, Option.map_some', renderWith_eq_spec]
  · simp only [Log.pushLog, hs, Log.save, Log.prepareSave, Option.map_some',
      lookupSec_setSec_self]
  · simp only [Log.pushLog, hs, Log.save, Log.prepareSave, Option.map_some',
      lookupSec_setSec_ne hk]

/-- Witness for C1 at a concrete one-section state. -/
theorem claim_C1_witness :
    exStFull.render = some (renderDocSpec exStFull dt2)
      ∧ (exStFull.pushLog ("ERROR".toList) ("P1".toList) ("bad row 4".toList) dt2).map
          (fun r => lookupSec ("P1".toList) r.1.sections)
          = some (some { exSec with
                           logs := exSec.logs
                             ++ [getLogObject ("ERROR".toList) ("bad row 4".toList) dt2] })
      ∧ (exStFull.pushLog ("ERROR".toList) ("P1".toList) ("bad row 4".toList) dt2).map
          (fun r => lookupSec ("OTHER".toList) r.1.sections)
          = some (lookupSec ("OTHER".toList) exStFull.sections) :=
  claim_C1_render_entries exStFull dt2 dt2 ("ERROR".toList) ("P1".toList) ("OTHER".toList)
    ("bad row 4".toList) exSec rfl rfl (by decide)

/-- C2 (amended): the rendered document lists section links and section
blocks in ECMAScript own-property enumeration order of `this.sections`:
array-index string keys first in ascending numeric order, then the remaining
keys in creation order.  Creating a section under a fresh key appends it at
the end of the property order, so whenever no caller-supplied key is an
array-index string the enumeration equals creation order and the document is
first-created-first-shown in both the table of contents and the body. -/
theorem claim_C2_section_order (st st2 : Log) (e : DateTime) (name key : Str) (t : DateTime)
    (hE : st.endT = some e) (hnew : lookupSec key st.sections = none)
    (hplain : ∀ p ∈ st2.sections, isArrayIndexKey p.1 = false) :
    st.render = some (renderDocSpec st e)
      ∧ (st.createSection name key t).1.sections
          = st.sections ++ [(key, { key := key, name := name, start := t, endT := t,
                                    elapsed := none, logs := [] })]
      ∧ jsOwnOrder st2.sections = st2.sections := by
  refine ⟨?_, ?_, jsOwnOrder_eq_self hplain⟩
  · rw [Log.render, hE, Option.map_some', renderWith_eq_spec]
  · simp only [Log.createSection, Log.save, Log.prepareSave]
    exact setSec_of_lookup_none hnew _

/-- Witness for C2 at a concrete state whose only key "P1" is not an array
index. -/
theorem claim_C2_witness :
    exStFull.render = some (renderDocSpec exStFull dt2)
      ∧ (exStFull.createSection ("Phase 2".toList) ("P2".toList) dt2).1.sections
          = exStFull.sections
            ++ [(("P2".toList : Str),
                 { key := "P2".toList, name := "Phase 2".toList, start := dt2, endT := dt2,
                   elapsed := none, logs := [] })]
      ∧ jsOwnOrder exStFull.sections = exStFull.sections :=
  claim_C2_section_order exStFull exStFull dt2 ("Phase 2".toList) ("P2".toList) dt2 rfl rfl
    (by decide)

/-- Counterexample for C2 as stated: with the distinct caller-supplied string
keys "10" (created first) and "2" (created second), enumeration — and with it
the rendered table of contents and body, which iterate `jsOwnOrder` — shows
"2" before "10", the reverse of creation order, because both keys are
array-index strings and sort numerically. -/
theorem claim_C2_counterexample :
    exNum2.sections.map (fun p => p.1) = ["10".toList, "2".toList]
      ∧ (jsOwnOrder exNum2.sections).map (fun p => p.1) = ["2".toList, "10".toList]
      ∧ tocLoop ((jsOwnOrder exNum2.sections).map (fun p => p.2))
          ≠ tocLoop (exNum2.sections.map (fun p => p.2)) :=
  ⟨by decide, by decide, by decide⟩

/-- C4 (amended): the save path is derived from `start`, `title` and
`logsPath` alone, with shape
`logsPath/YYYY/MM/DD/<title>_<YYYYMMDD_Hms>.html` where directory `MM`/`DD`
are zero-padded but the hour, minute and second of the filename stamp are
unpadded decimal; and every public call, from any state, leaves the derived
path unchanged and targets all its writes at that path — so all `save()`
calls of one run write the identical file. -/
theorem claim_C4_save_path (st : Log) (op : Op) (now : DateTime) :
    st.savePath
      = st.logsPath ++ "/".toList ++ natToStr st.start.fullYear ++ "/".toList
        ++ jsPad (st.start.month + 1) ++ "/".toList ++ jsPad st.start.date ++ "/".toList
        ++ (st.title ++ "_".toList
            ++ (natToStr st.start.fullYear ++ (jsPad (st.start.month + 1)
                ++ (jsPad st.start.date ++ (['_'] ++ (natToStr st.start.hours
                    ++ (natToStr st.start.minutes ++ natToStr st.start.seconds)))))))
        ++ ".html".toList
      ∧ preservesPath st (execOp st op now) :=
  ⟨savePath_decomp st, execOp_preservesPath st op now⟩

/-- Counterexample for C4 as stated: at start 2024-03-05T09:07:03 the code
derives `.../Import_20240305_973.html` — the `HHmmss` part of the claimed
shape would be `090703`, but hour, minute and second are substituted without
padding, giving `973`. -/
theorem claim_C4_counterexample :
    exLog.savePath = "/tmp/logs/2024/03/05/Import_20240305_973.html".toList
      ∧ specSavePathHHmmss exLog = "/tmp/logs/2024/03/05/Import_20240305_090703.html".toList
      ∧ exLog.savePath ≠ specSavePathHHmmss exLog :=
  ⟨by decide, by decide, by decide⟩

/-- C6: when no EXCEPTIONS section exists, `_logException` (the body of
`errorException`/`debugException`) creates it with display name "Unhandled
exceptions", appends the entry and closes it (elapsed spans the single call
instant); when it already exists, the section is reused without recreation:
its `start` — set at the very first exception — is kept, the entry is
appended after the existing ones, and the recomputed `elapsed` is the time
since that first creation, not since the previous call. -/
theorem claim_C6_exceptions (st1 st2 : Log) (ty1 ty2 m1 m2 : Str) (t1 t2 : DateTime) (s2 : Sec)
    (h1 : lookupSec ("EXCEPTIONS".toList) st1.sections = none)
    (h2 : lookupSec ("EXCEPTIONS".toList) st2.sections = some s2) :
    (st1.logException ty1 m1 t1).map (fun r => lookupSec ("EXCEPTIONS".toList) r.1.sections)
        = some (some { key := "EXCEPTIONS".toList, name := "Unhandled exceptions".toList,
                       start := t1, endT := t1, elapsed := some (t1.time - t1.time),
                       logs := [getLogObject ty1 m1 t1] })
      ∧ (st2.logException ty2 m2 t2).map (fun r => lookupSec ("EXCEPTIONS".toList) r.1.sections)
          = some (some { key := s2.key, name := s2.name, start := s2.start, endT := t2,
                         elapsed := some (t2.time - s2.start.time),
                         logs := s2.logs ++ [getLogObject ty2 m2 t2] })
      ∧ st1.errorException m1 t1 = st1.logException ("ERROR".toList) m1 t1
      ∧ st1.debugException m1 t1 = st1.logException ("DEBUG".toList) m1 t1 := by
  refine ⟨?_, ?_, rfl, rfl⟩
  · simp only [Log.logException, h1, Log.createSection, Log.pushLog, Log.closeSection,
      Log.save, Log.prepareSave, lookupSec_setSec_self, Option.map_some', List.nil_append]
  · simp only [Log.logException, h2, Log.pushLog, Log.closeSection, Log.save, Log.prepareSave,
      lookupSec_setSec_self, Option.map_some']

/-- Witness for C6: a first exception on a state without the section, a
further exception on a state owning it. -/
theorem claim_C6_witness :
    (exStFull.logException ("ERROR".toList) ("boom".toList) dt1).map
        (fun r => lookupSec ("EXCEPTIONS".toList) r.1.sections)
        = some (some { key := "EXCEPTIONS".toList, name := "Unhandled exceptions".toList,
                       start := dt1, endT := dt1, elapsed := some (dt1.time - dt1.time),
                       logs := [getLogObject ("ERROR".toList) ("boom".toList) dt1] })
      ∧ (exLogExc.logException ("DEBUG".toList) ("again".toList) dt2).map
          (fun r => lookupSec ("EXCEPTIONS".toList) r.1.sections)
          = some (some { key := excSec.key, name := excSec.name, start := excSec.start,
                         endT := dt2, elapsed := some (dt2.time - excSec.start.time),
                         logs := excSec.logs
                           ++ [getLogObject ("DEBUG".toList) ("again".toList) dt2] })
      ∧ exStFull.errorException ("boom".toList) dt1
          = exStFull.logException ("ERROR".toList) ("boom".toList) dt1
      ∧ exStFull.debugException ("boom".toList) dt1
          = exStFull.logException ("DEBUG".toList) ("boom".toList) dt1 :=
  claim_C6_exceptions exStFull exLogExc ("ERROR".toList) ("DEBUG".toList) ("boom".toList)
    ("again".toList) dt1 dt2 excSec rfl rfl

/-- Witness for C8 at the sample timestamp (day 5, month 3, both below ten). -/
theorem claim_C8_witness :
    dateToString sampleDate ("dd".toList) = '0' :: natToStr sampleDate.date
      ∧ dateToString sampleDate ("mm".toList) = '0' :: natToStr (sampleDate.month + 1)
      ∧ dateToString sampleDate ("yyyy".toList) = natToStr sampleDate.fullYear
      ∧ dateToString sampleDate ("H".toList) = natToStr sampleDate.hours
      ∧ dateToString sampleDate ("i".toList) = natToStr sampleDate.minutes
      ∧ dateToString sampleDate ("s".toList) = natToStr sampleDate.seconds
      ∧ dateToString sampleDate ("dd/mm/yyyy H:i:s".toList) = "05/03/2024 9:7:3".toList :=
  claim_C8_formatting sampleDate sampleDate (by decide) (by decide)

/-- C9: the formatter is the left fold of literal first-occurrence
replacements over the token list dd, mm, yyyy, H, i, s in that fixed order;
`replaceFirst` rewrites exactly the leftmost occurrence, leaving the rest of
the template — in particular any further occurrence of the same token —
verbatim; and for every timestamp the duplicate-token template `"s s"` has
only its first `s` substituted, the second remaining literal. -/
theorem claim_C9_ordered_replacement (d : DateTime) (tpl a b pat rep : Str)
    (hp : pat ≠ [])
    (h : ∀ j < a.length, leadsWith pat ((a ++ pat ++ b).drop j) = false) :
    dateToString d tpl
        = (tokenPairs d).foldl (fun acc pr => replaceFirst acc pr.1 pr.2) tpl
      ∧ replaceFirst (a ++ pat ++ b) pat rep = a ++ rep ++ b
      ∧ dateToString d ("s s".toList) = natToStr d.seconds ++ " s".toList := by
  refine ⟨?_, replaceFirst_first_occur hp a b rep h, ?_⟩
  · simp [dateToString, tokenPairs]
  · simp only [dateToString]
    rw [replaceFirst_of_not_mem (show 'd' ∈ ['d', 'd'] by decide)
        (show 'd' ∉ ("s s".toList) by decide) _,
      replaceFirst_of_not_mem (show 'm' ∈ ['m', 'm'] by decide)
        (show 'm' ∉ ("s s".toList) by decide) _,
      replaceFirst_of_not_mem (show 'y' ∈ ['y', 'y', 'y', 'y'] by decide)
        (show 'y' ∉ ("s s".toList) by decide) _,
      replaceFirst_of_not_mem (show 'H' ∈ ['H'] by decide)
        (show 'H' ∉ ("s s".toList) by decide) _,
      replaceFirst_of_not_mem (show 'i' ∈ ['i'] by decide)
        (show 'i' ∉ ("s s".toList) by decide) _,
      show replaceFirst ("s s".toList) ['s'] (natToStr d.seconds)
        = natToStr d.seconds ++ " s".toList from rfl]

/-- Witness for C9: pattern "cd" first occurs at offset 2 of "abcdxcd"; only
that occurrence is replaced. -/
theorem claim_C9_witness :
    dateToString sampleDate ("x".toList)
        = (tokenPairs sampleDate).foldl (fun acc pr => replaceFirst acc pr.1 pr.2) ("x".toList)
      ∧ replaceFirst ("ab".toList ++ "cd".toList ++ "xcd".toList) ("cd".toList) ("YY".toList)
          = "ab".toList ++ "YY".toList ++ "xcd".toList
      ∧ dateToString sampleDate ("s s".toList)
          = natToStr sampleDate.seconds ++ " s".toList :=
  claim_C9_ordered_replacement sampleDate ("x".toList) ("ab".toList) ("xcd".toList)
    ("cd".toList) ("YY".toList) (by decide) (by decide)

/-- C10: rendering interpolates the logger's title and description, every
section's name and key, and every recorded entry's value into the document
verbatim — the raw characters occur as a contiguous substring, with no HTML
escaping applied. -/
theorem claim_C10_verbatim (st : Log) (e : DateTime) (k : Str) (s : Sec) (l : Entry)
    (hE : st.endT = some e) (hs : lookupSec k st.sections = some s) (hl : l ∈ s.logs) :
    st.render = some (st.renderWith e)
      ∧ containsSub (st.renderWith e) st.title = true
      ∧ containsSub (st.renderWith e) st.description = true
      ∧ containsSub (st.renderWith e) s.name = true
      ∧ containsSub (st.renderWith e) s.key = true
      ∧ containsSub (st.renderWith e) l.value = true := by
  have hmem : ((k, s) : Str × Sec) ∈ jsOwnOrder st.sections :=
    mem_jsOwnOrder (mem_of_lookupSec hs)
  refine ⟨?_, ?_, ?_, ?_, ?_, ?_⟩
  · rw [Log.render, hE, Option.map_some']
  · rw [renderWith_eq_spec]
    simp only [renderDocSpec, List.append_assoc]
    apply containsSub_append_right
    exact containsSub_head (leadsWith_append_self _ _)
  · rw [renderWith_eq_spec]
    simp only [renderDocSpec, List.append_assoc]
    apply containsSub_append_right
    apply containsSub_append_right
    apply containsSub_append_right
    apply containsSub_append_right
    apply containsSub_append_right
    apply containsSub_append_right
    apply containsSub_append_right
    exact containsSub_head (leadsWith_append_self _ _)
  · rw [renderWith_eq_spec]
    simp only [renderDocSpec, List.append_assoc]
    apply containsSub_append_right
    apply containsSub_append_right
    apply containsSub_append_right
    apply containsSub_append_right
    apply containsSub_append_right
    apply containsSub_append_right
    apply containsSub_append_right
    apply containsSub_append_right
    apply containsSub_append_right
    apply containsSub_append_right
    apply containsSub_append_right
    apply containsSub_append_right
    apply containsSub_append_right
    apply containsSub_append_left
    apply containsSub_flatten_of_mem _ hmem
    beta_reduce
    apply containsSub_append_right
    apply containsSub_append_right
    apply containsSub_append_right
    exact containsSub_head (leadsWith_append_self _ _)
  · rw [renderWith_eq_spec]
    simp only [renderDocSpec, List.append_assoc]
    apply containsSub_append_right
    apply containsSub_append_right
    apply containsSub_append_right
    apply containsSub_append_right
    apply containsSub_append_right
    apply containsSub_append_right
    apply containsSub_append_right
    apply containsSub_append_right
    apply containsSub_append_right
    apply containsSub_append_right
    apply containsSub_append_right
    apply containsSub_append_right
    apply containsSub_append_right
    apply containsSub_append_left
    apply containsSub_flatten_of_mem _ hmem
    beta_reduce
    apply containsSub_append_right
    exact containsSub_head (leadsWith_append_self _ _)
  · rw [renderWith_eq_spec]
    simp only [renderDocSpec, List.append_assoc]
    apply containsSub_append_right
    apply containsSub_append_right
    apply containsSub_append_right
    apply containsSub_append_right
    apply containsSub_append_right
    apply containsSub_append_right
    apply containsSub_append_right
    apply containsSub_append_right
    apply containsSub_append_right
    apply containsSub_append_right
    apply containsSub_append_right
    apply containsSub_append_right
    apply containsSub_append_right
    apply containsSub_append_right
    apply containsSub_append_right
    apply containsSub_append_left
    apply containsSub_flatten_of_mem _ hmem
    beta_reduce
    apply containsSub_append_right
    apply containsSub_append_right
    apply containsSub_append_right
    apply containsSub_append_right
    apply containsSub_append_right
    apply containsSub_append_right
    apply containsSub_append_right
    apply containsSub_append_right
    apply containsSub_append_right
    apply containsSub_append_left
    apply containsSub_flatten_of_mem _ hl
    beta_reduce
    apply containsSub_append_right
    apply containsSub_append_right
    apply containsSub_append_right
    apply containsSub_append_right
    apply containsSub_append_right
    apply containsSub_append_right
    apply containsSub_append_right
    exact containsSub_head (leadsWith_append_self _ _)

/-- Witness for C10: the concrete entry value "started" (and title,
description, section name and key) occur verbatim in the rendered document. -/
theorem claim_C10_witness :
    exStFull.render = some (exStFull.renderWith dt2)
      ∧ containsSub (exStFull.renderWith dt2) exStFull.title = true
      ∧ containsSub (exStFull.renderWith dt2) exStFull.description = true
      ∧ containsSub (exStFull.renderWith dt2) exSec.name = true
      ∧ containsSub (exStFull.renderWith dt2) exSec.key = true
      ∧ containsSub (exStFull.renderWith dt2) exEntry.value = true :=
  claim_C10_verbatim exStFull dt2 ("P1".toList) exSec exEntry rfl rfl (by decide)

end HtmlLog
